import Mathlib

/-!
Verification of the scheduling engine of the Helexia commercial planner
(src/services/scheduler.ts together with the type declarations of
src/types.ts), over a shallow embedding of JavaScript calendar-date
arithmetic.  All dates in the program are UTC-midnight instants, so a date
is modelled by its civil components (getFullYear, getMonth, getDate); the
JS setters setMonth / setDate normalize arbitrary month and day values by
carrying across month and year boundaries (ECMAScript MakeDay), which is
reproduced by the `mkDate` smart constructor below.  Date comparison and
Math.max on getTime() are modelled through `toDays`, the number of days
between the date and 1970-01-01 (getTime() / 86400000).
-/

/-- A JavaScript calendar date at day granularity: the triple
(getFullYear, getMonth, getDate), with getMonth 0-based. -/
structure Date where
  year : Int
  month : Int
  day : Int
deriving DecidableEq, Repr

/-- Proleptic Gregorian leap-year test, as used by the JS Date object. -/
def isLeapYear (y : Int) : Bool :=
  y % 4 == 0 && (y % 100 != 0 || y % 400 == 0)

/-- Number of days in month `m` (0-based, assumed in [0, 12)) of year `y`. -/
def daysInMonth (y m : Int) : Int :=
  if m = 1 then (if isLeapYear y then 29 else 28)
  else if m = 3 ∨ m = 5 ∨ m = 8 ∨ m = 10 then 30
  else 31

/-- Normalize an out-of-range day-of-month by carrying across month
boundaries, as the ECMAScript MakeDay operation does; the month argument is
assumed normalized into [0, 12).  The fuel argument bounds the recursion
and is always instantiated large enough for the carry chain to finish. -/
def dayNorm : Nat → Int → Int → Int → Date
  | 0, y, m, d => ⟨y, m, d⟩
  | fuel + 1, y, m, d =>
    if d < 1 then
      let y2 := if m = 0 then y - 1 else y
      let m2 := if m = 0 then 11 else m - 1
      dayNorm fuel y2 m2 (d + daysInMonth y2 m2)
    else if daysInMonth y m < d then
      let y2 := if m = 11 then y + 1 else y
      let m2 := if m = 11 then 0 else m + 1
      dayNorm fuel y2 m2 (d - daysInMonth y m)
    else ⟨y, m, d⟩

/-- Build the JS date with the given raw year / month / day components:
the month is first folded into [0, 12) carrying into the year (floor
division, as in MakeDay; `Int` division by a positive literal is floor
division), then the day is normalized across month boundaries. -/
def mkDate (y m d : Int) : Date :=
  dayNorm (d.natAbs + 3) (y + m / 12) (m % 12) d

/-- scheduler.ts addMonths: `d.setMonth(d.getMonth() + months)`. -/
def addMonths (date : Date) (months : Int) : Date :=
  mkDate date.year (date.month + months) date.day

/-- scheduler.ts diffMonths: whole months from `d1` to `d2` computed from
the year and month components, with nonpositive results clamped to 0. -/
def diffMonths (d1 d2 : Date) : Int :=
  let months := (d2.year - d1.year) * 12 - d1.month + d2.month
  if months ≤ 0 then 0 else months

/-- scheduler.ts subMonths: `d.setMonth(d.getMonth() - months)`. -/
def subMonths (date : Date) (months : Int) : Date :=
  mkDate date.year (date.month - months) date.day

/-- scheduler.ts isRestrictedMonth: January, April or August
(0-based month indices 0, 3, 7). -/
def isRestrictedMonth (date : Date) : Bool :=
  date.month == 0 || date.month == 3 || date.month == 7

/-- Shift a date by `k` whole days.  This models both the
`d.setDate(d.getDate() + k)` pattern and the epoch-milliseconds pattern
`new Date(d.getTime() + k * 86400000)` of scheduler.ts, which coincide on
UTC-midnight dates. -/
def addDays (date : Date) (k : Int) : Date :=
  mkDate date.year date.month (date.day + k)

/-- Days elapsed since 1970-01-01 for a normalized civil date: the value
`getTime() / 86400000` of the corresponding UTC-midnight JS Date.  Date
comparison (`<` on Dates) and `Math.max` on `getTime()` in scheduler.ts
are comparisons of this quantity. -/
def toDays (date : Date) : Int :=
  let m1 := date.month + 1
  let yAdj := if m1 ≤ 2 then date.year - 1 else date.year
  let doy := (153 * (if 2 < m1 then m1 - 3 else m1 + 9) + 2) / 5 + date.day - 1
  365 * yAdj + yAdj / 4 - yAdj / 100 + yAdj / 400 + doy - 719468

/-- Helper: `toDays` as a function of the linear month count 12*year+month
(and of an arbitrary day offset).  Used to reason about month shifts. -/
def toDaysM (M d : Int) : Int :=
  toDays ⟨M / 12, M % 12, d⟩

/-- The date triples that denote actual JS dates: month in [0, 12) and day
within the month.  `new Date("YYYY-MM-DD")` always yields such a date. -/
def Date.Valid (d : Date) : Prop :=
  0 ≤ d.month ∧ d.month < 12 ∧ 1 ≤ d.day ∧ d.day ≤ daysInMonth d.year d.month

instance (d : Date) : Decidable d.Valid := by
  unfold Date.Valid
  infer_instance

/-- Math.round, as used for the negotiation-phase day count:
round half toward positive infinity. -/
def jsRound (q : ℚ) : Int :=
  ⌊q + 1 / 2⌋

inductive ProjectTypology where
  | ROOF_NEW
  | ROOF_EXISTING
  | SHADE
  | GROUND
deriving DecidableEq, Repr

inductive InjectionType where
  | TOTAL_INJECTION
  | AUTOCONSUMPTION
deriving DecidableEq, Repr

inductive InvestmentModel where
  | OWN_INVESTMENT
  | CLIENT_INVESTMENT
deriving DecidableEq, Repr

/-- Per-phase duration overrides (types.ts PhaseOverride), `none` meaning
`undefined`.  Durations that are used as whole-month shifts are modelled
as integers, since JS month arithmetic on a fractional month count yields
an Invalid Date; the negotiation duration is only ever used through
`Math.round(d * 30.44)` and stays rational. -/
structure PhaseOverride where
  negotiationDuration : Option ℚ
  urbanismDuration : Option Int
  creDuration : Option Int
  leaseDuration : Option Int
  connectionDuration : Option Int
  constructionDuration : Option Int
deriving DecidableEq, Repr

/-- types.ts SkippedPhases; an absent (undefined) flag reads as false. -/
structure SkippedPhases where
  negotiation : Bool
  urbanism : Bool
  aoCre : Bool
  leaseManagement : Bool
  connection : Bool
  construction : Bool
deriving DecidableEq, Repr

/-- types.ts ProjectConfig.  The signatureDate string "YYYY-MM-DD" is
modelled in already-parsed form. -/
structure ProjectConfig where
  id : String
  name : String
  signatureDate : Date
  powerKWc : ℚ
  typology : ProjectTypology
  injectionType : InjectionType
  investmentModel : InvestmentModel
  isSubcontracted : Bool
  overrides : PhaseOverride
  skippedPhases : SkippedPhases
deriving DecidableEq, Repr

/-- types.ts DateRange. -/
structure DateRange where
  start : Date
  «end» : Date
  durationMonths : ℚ
deriving DecidableEq, Repr

/-- The milestones record of types.ts PhaseResult. -/
structure Milestones where
  loi : Option Date
  signature : Date
  urbanismOk : Option Date
  laureate : Option Date
  leaseSigned : Option Date
  constructionCompletion : Date
  cod : Date
deriving DecidableEq, Repr

/-- types.ts PhaseResult. -/
structure PhaseResult where
  negotiation : Option DateRange
  urbanism : Option DateRange
  aoCre : Option DateRange
  leaseManagement : Option DateRange
  connection : DateRange
  construction : DateRange
  operation : DateRange
  milestones : Milestones
  totalDurationMonths : ℚ
deriving DecidableEq, Repr

/-- Stage 1 (scheduler.ts lines 58-71): the negotiation range, computed
backward from T0 with `round(duration * 30.44)` days; absent if skipped. -/
def negotiationRange (config : ProjectConfig) : Option DateRange :=
  if config.skippedPhases.negotiation then none
  else
    let negDuration := (config.overrides.negotiationDuration).getD 0.5
    let days := jsRound (negDuration * 30.44)
    some ⟨addDays config.signatureDate (-days), config.signatureDate, negDuration⟩

/-- Stage 2 (lines 73-85): urbanism duration, 6 months for more than
3000 kWc or a new roof, else 4, unless overridden. -/
def urbanismDuration (config : ProjectConfig) : Int :=
  (config.overrides.urbanismDuration).getD
    (if 3000 < config.powerKWc ∨ config.typology = ProjectTypology.ROOF_NEW then 6 else 4)

/-- Lines 76-84: the urbanism end used as the downstream anchor; it
defaults to T0 when the urbanism phase is skipped. -/
def urbanEnd (config : ProjectConfig) : Date :=
  if config.skippedPhases.urbanism then config.signatureDate
  else addMonths config.signatureDate (urbanismDuration config)

/-- Lines 78-85: the urbanism range, absent if skipped. -/
def urbanRange (config : ProjectConfig) : Option DateRange :=
  if config.skippedPhases.urbanism then none
  else some ⟨config.signatureDate, urbanEnd config, (urbanismDuration config : ℚ)⟩

/-- Lines 89-100: the AO CRE (tender) range, present iff the phase is not
skipped, the power exceeds 100 kWc and the injection mode is total
injection; 4 months unless overridden, anchored at urbanEnd. -/
def creRange (config : ProjectConfig) : Option DateRange :=
  if config.skippedPhases.aoCre = false ∧ 100 < config.powerKWc ∧
      config.injectionType = InjectionType.TOTAL_INJECTION then
    let dur := (config.overrides.creDuration).getD 4
    some ⟨urbanEnd config, addMonths (urbanEnd config) dur, (dur : ℚ)⟩
  else none

/-- Lines 102-114: the lease-management range, present iff the phase is
not skipped and the investment model is the OWN_INVESTMENT identifier;
4 months unless overridden, anchored at urbanEnd. -/
def leaseRange (config : ProjectConfig) : Option DateRange :=
  if config.skippedPhases.leaseManagement = false ∧
      config.investmentModel = InvestmentModel.OWN_INVESTMENT then
    let dur := (config.overrides.leaseDuration).getD 4
    some ⟨urbanEnd config, addMonths (urbanEnd config) dur, (dur : ℚ)⟩
  else none

/-- Line 118: the tender end date, falling back to urbanEnd. -/
def creEndDate (config : ProjectConfig) : Date :=
  match creRange config with
  | some r => r.«end»
  | none => urbanEnd config

/-- Line 119: the lease end date, falling back to urbanEnd. -/
def leaseEndDate (config : ProjectConfig) : Date :=
  match leaseRange config with
  | some r => r.«end»
  | none => urbanEnd config

/-- Line 121: `new Date(Math.max(creEndDate.getTime(), leaseEndDate.getTime()))`,
the earliest date physical implementation may start. -/
def securityLockDate (config : ProjectConfig) : Date :=
  if toDays (creEndDate config) < toDays (leaseEndDate config) then leaseEndDate config
  else creEndDate config

/-- Lines 124-140: the connection duration: override if present, else 5
months under self-consumption, else the power tier 6 / 9 / 12 / 18; forced
to 0 afterwards when the connection phase is skipped. -/
def connectionDuration (config : ProjectConfig) : Int :=
  let base :=
    match config.overrides.connectionDuration with
    | some d => d
    | none =>
      if config.injectionType = InjectionType.AUTOCONSUMPTION then 5
      else if config.powerKWc ≤ 36 then 6
      else if config.powerKWc ≤ 250 then 9
      else if config.powerKWc ≤ 1000 then 12
      else 18
  if config.skippedPhases.connection then 0 else base

/-- Lines 143-144: the initial connection window, before any repair:
it starts at the security lock date. -/
def connectionEnd0 (config : ProjectConfig) : Date :=
  addMonths (securityLockDate config) (connectionDuration config)

/-- Lines 152-156: the theoretical work months: 3 base, 4 above 500 kWc,
6 above 2000 kWc, unless overridden (the source applies the two power
bumps in sequence, so the larger threshold wins, as in this nesting). -/
def workMonthsNeeded (config : ProjectConfig) : Int :=
  (config.overrides.constructionDuration).getD
    (if 2000 < config.powerKWc then 6 else if 500 < config.powerKWc then 4 else 3)

/-- Lines 158-160: the construction end targeted by the backward pass,
15 days before the (initial) connection end. -/
def targetConstructionEnd (config : ProjectConfig) : Date :=
  addDays (connectionEnd0 config) (-15)

/-- Lines 169-183: the backward seasonality walk.  From the cursor, step
back one month at a time; a step whose landing month is not restricted
increments the valid-months counter; stop when the counter reaches the
needed count or the protection bound is exhausted.  Returns the final
cursor together with the number of iterations executed (the final value of
the protection counter); the fuel argument is the remaining protection
budget, instantiated at 36 by the engine. -/
def backwardWalk : Nat → Date → Int → Int → Date × Nat
  | 0, cursor, _, _ => (cursor, 0)
  | fuel + 1, cursor, found, needed =>
    if found < needed then
      let prevMonth := subMonths cursor 1
      let found2 := if isRestrictedMonth prevMonth then found else found + 1
      let rest := backwardWalk fuel prevMonth found2 needed
      (rest.1, rest.2 + 1)
    else (cursor, 0)

/-- Lines 162-184: the backward placement of the construction start: a
plain month subtraction for subcontracted projects, the backward
seasonality walk otherwise. -/
def initialConstructionStart (config : ProjectConfig) : Date :=
  if config.isSubcontracted then
    subMonths (targetConstructionEnd config) (workMonthsNeeded config)
  else
    (backwardWalk 36 (targetConstructionEnd config) 0 (workMonthsNeeded config)).1

/-- Lines 204-214: the forward seasonality walk used by the repair branch:
count the cursor month when it is not restricted, then advance one month;
stop when enough productive months were counted or the protection bound is
exhausted.  Returns the final cursor and the number of iterations. -/
def forwardWalk : Nat → Date → Int → Int → Date × Nat
  | 0, cursor, _, _ => (cursor, 0)
  | fuel + 1, cursor, added, needed =>
    if added < needed then
      let added2 := if isRestrictedMonth cursor then added else added + 1
      let rest := forwardWalk fuel (addMonths cursor 1) added2 needed
      (rest.1, rest.2 + 1)
    else (cursor, 0)

/-- Lines 191-215: the construction end recomputed forward from the
security lock date by the repair branch. -/
def actualConstructionEnd (config : ProjectConfig) : Date :=
  if config.isSubcontracted then
    addMonths (securityLockDate config) (workMonthsNeeded config)
  else
    (forwardWalk 36 (securityLockDate config) 0 (workMonthsNeeded config)).1

/-- The condition under which the repair branch rewrites the connection
window (lines 187 and 198/221): construction is not skipped, the
backward-placed start precedes the security lock date, and connection is
not skipped. -/
def connectionRewritten (config : ProjectConfig) : Prop :=
  config.skippedPhases.construction = false ∧
    toDays (initialConstructionStart config) < toDays (securityLockDate config) ∧
    config.skippedPhases.connection = false

instance (config : ProjectConfig) : Decidable (connectionRewritten config) := by
  unfold connectionRewritten
  infer_instance

/-- The final value of the mutable `connectionEnd` (lines 144, 199, 222):
rewritten to 15 days past the recomputed construction end when the repair
branch fires and connection is not skipped. -/
def finalConnectionEnd (config : ProjectConfig) : Date :=
  if connectionRewritten config then addDays (actualConstructionEnd config) 15
  else connectionEnd0 config

/-- The final value of the mutable `connectionStart` (lines 143, 200, 223). -/
def finalConnectionStart (config : ProjectConfig) : Date :=
  if connectionRewritten config then
    subMonths (finalConnectionEnd config) (connectionDuration config)
  else securityLockDate config

/-- Lines 146-233: the construction range.  When skipped, a zero-length
range at the (initial) connection start.  Otherwise the start is the
backward placement, re-anchored to the security lock date by the repair
branch when it precedes it; the end is recomputed as the final connection
end minus 15 days, and the reported duration is diffMonths measured to the
final connection end. -/
def constructionRange (config : ProjectConfig) : DateRange :=
  if config.skippedPhases.construction then
    ⟨securityLockDate config, securityLockDate config, 0⟩
  else
    let startD :=
      if toDays (initialConstructionStart config) < toDays (securityLockDate config) then
        securityLockDate config
      else initialConstructionStart config
    ⟨startD, addDays (finalConnectionEnd config) (-15),
      (diffMonths startD (finalConnectionEnd config) : ℚ)⟩

/-- Line 237: the commercial operation date, one month after the final
connection end. -/
def codDate (config : ProjectConfig) : Date :=
  addMonths (finalConnectionEnd config) 1

/-- Line 239: the start used for the total duration. -/
def finalNegotiationStart (config : ProjectConfig) : Date :=
  match negotiationRange config with
  | some r => r.start
  | none => config.signatureDate

/-- scheduler.ts calculateProjectTimeline (lines 53-260), assembled from
the stage definitions above. -/
def calculateProjectTimeline (config : ProjectConfig) : PhaseResult :=
  { negotiation := negotiationRange config
    urbanism := urbanRange config
    aoCre := creRange config
    leaseManagement := leaseRange config
    connection :=
      ⟨finalConnectionStart config, finalConnectionEnd config, (connectionDuration config : ℚ)⟩
    construction := constructionRange config
    operation := ⟨codDate config, addMonths (codDate config) 24, 24⟩
    milestones :=
      { loi := if (negotiationRange config).isSome then some config.signatureDate else none
        signature := config.signatureDate
        urbanismOk := if (urbanRange config).isSome then some (urbanEnd config) else none
        laureate := (creRange config).map (fun r => r.«end»)
        leaseSigned := (leaseRange config).map (fun r => r.«end»)
        constructionCompletion := (constructionRange config).«end»
        cod := codDate config }
    totalDurationMonths := (diffMonths (finalNegotiationStart config) (codDate config) : ℚ) }

/-- Stated from the specification wording of the backward placement (spec
section 4.2 Stage E step 3), for comparison with the engine's walk: walk
backward from the target one month at a time, up to the given step budget;
each step that lands on a non-restricted month increments a valid-months
counter; stop when the counter reaches the needed work months or the step
budget is exhausted; the result is the final cursor position. -/
def backwardWalkSpecGo : Nat → Date → Int → Int → Date
  | 0, cursor, _, _ => cursor
  | budget + 1, cursor, counter, needed =>
    if needed ≤ counter then cursor
    else
      let stepped := subMonths cursor 1
      backwardWalkSpecGo budget stepped
        (if isRestrictedMonth stepped then counter else counter + 1) needed

/-- An empty override map (all durations undefined). -/
def noOverrides : PhaseOverride :=
  ⟨none, none, none, none, none, none⟩

/-- An empty skip map (no phase skipped). -/
def noSkips : SkippedPhases :=
  ⟨false, false, false, false, false, false⟩

/-- The concrete scenario of spec section 8: T0 = 2025-03-01, 200 kWc,
existing roof, total injection, own investment, self-executed, no skips,
no overrides. -/
def scenarioConfig : ProjectConfig :=
  ⟨"p1", "Scenario", ⟨2025, 2, 1⟩, 200, ProjectTypology.ROOF_EXISTING,
    InjectionType.TOTAL_INJECTION, InvestmentModel.OWN_INVESTMENT, false,
    noOverrides, noSkips⟩

/-- A configuration whose backward placement lands before the security
lock date (so the repair branch fires) while connection is not skipped:
T0 = 2024-12-20, urbanism skipped, 50 kWc (no tender), client investment
(no lease), work-months override 1, connection override 2. -/
def repairConfig : ProjectConfig :=
  ⟨"p2", "Repair", ⟨2024, 11, 20⟩, 50, ProjectTypology.ROOF_EXISTING,
    InjectionType.TOTAL_INJECTION, InvestmentModel.CLIENT_INVESTMENT, false,
    ⟨none, none, none, none, some 2, some 1⟩,
    ⟨false, true, false, false, false, false⟩⟩

/-- A configuration with 50 kWc and the tender phase not skipped: the
tender is nevertheless excluded by the power gate. -/
def smallPowerConfig : ProjectConfig :=
  ⟨"p3", "Small", ⟨2025, 2, 1⟩, 50, ProjectTypology.ROOF_EXISTING,
    InjectionType.TOTAL_INJECTION, InvestmentModel.OWN_INVESTMENT, false,
    noOverrides, noSkips⟩

/-- A subcontracted configuration with connection skipped and a negative
construction-duration override: the backward placement jumps forward past
the security lock date. -/
def subNegOverrideConfig : ProjectConfig :=
  ⟨"p4", "NegOverride", ⟨2025, 2, 1⟩, 50, ProjectTypology.ROOF_EXISTING,
    InjectionType.TOTAL_INJECTION, InvestmentModel.CLIENT_INVESTMENT, true,
    ⟨none, none, none, none, none, some (-2)⟩,
    ⟨false, false, false, false, true, false⟩⟩

/-- A configuration whose construction-duration override (100 months)
exhausts the 36-step protection bound of the seasonality walks. -/
def truncationConfig : ProjectConfig :=
  ⟨"p5", "Truncation", ⟨2025, 2, 1⟩, 200, ProjectTypology.ROOF_EXISTING,
    InjectionType.TOTAL_INJECTION, InvestmentModel.OWN_INVESTMENT, false,
    ⟨none, none, none, none, none, some 100⟩, noSkips⟩

/-- The scenario configuration with only the connection phase skipped. -/
def connectionSkippedConfig : ProjectConfig :=
  ⟨"p6", "ConnSkip", ⟨2025, 2, 1⟩, 200, ProjectTypology.ROOF_EXISTING,
    InjectionType.TOTAL_INJECTION, InvestmentModel.OWN_INVESTMENT, false,
    noOverrides, ⟨false, false, false, false, true, false⟩⟩

/-- The scenario configuration with only the construction phase skipped. -/
def constructionSkippedConfig : ProjectConfig :=
  ⟨"p7", "ConsSkip", ⟨2025, 2, 1⟩, 200, ProjectTypology.ROOF_EXISTING,
    InjectionType.TOTAL_INJECTION, InvestmentModel.OWN_INVESTMENT, false,
    noOverrides, ⟨false, false, false, false, false, true⟩⟩

/-- A family of configurations that differ only in rated power, used for
the power-tier boundary checks. -/
def tierConfig (p : ℚ) : ProjectConfig :=
  ⟨"p8", "Tier", ⟨2025, 2, 1⟩, p, ProjectTypology.ROOF_EXISTING,
    InjectionType.TOTAL_INJECTION, InvestmentModel.OWN_INVESTMENT, false,
    noOverrides, noSkips⟩

theorem daysInMonth_lb (y m : Int) : 28 ≤ daysInMonth y m := by
  unfold daysInMonth
  split
  · split <;> omega
  · split <;> omega

theorem daysInMonth_ub (y m : Int) : daysInMonth y m ≤ 31 := by
  unfold daysInMonth
  split
  · split <;> omega
  · split <;> omega

theorem toDays_day (y m d k : Int) : toDays ⟨y, m, d + k⟩ = toDays ⟨y, m, d⟩ + k := by
  unfold toDays
  dsimp only
  split <;> split <;> ring

theorem toDays_nextMonth (y m d : Int) (h1 : 0 ≤ m) (h2 : m < 12) :
    toDays ⟨if m = 11 then y + 1 else y, if m = 11 then 0 else m + 1, d⟩ =
      toDays ⟨y, m, d + daysInMonth y m⟩ := by
  interval_cases m <;>
    simp only [toDays, daysInMonth, isLeapYear, Bool.and_eq_true, Bool.or_eq_true,
      beq_iff_eq, bne_iff_ne] <;>
    norm_num <;>
    (try split) <;> omega

theorem dayNorm_month_lb_ub (fuel : ℕ) : ∀ y m d : Int, 0 ≤ m → m < 12 →
    0 ≤ (dayNorm fuel y m d).month ∧ (dayNorm fuel y m d).month < 12 := by
  induction fuel with
  | zero => intro y m d h1 h2; simpa [dayNorm] using ⟨h1, h2⟩
  | succ f ih =>
    intro y m d h1 h2
    simp only [dayNorm]
    split
    · apply ih
      · split <;> omega
      · split <;> omega
    · split
      · apply ih
        · split <;> omega
        · split <;> omega
      · exact ⟨h1, h2⟩

theorem toDays_prevMonthSub (y m d : Int) (h1 : 0 ≤ m) (h2 : m < 12) :
    toDays ⟨if m = 11 then y + 1 else y, if m = 11 then 0 else m + 1, d - daysInMonth y m⟩ =
      toDays ⟨y, m, d⟩ := by
  have h := toDays_nextMonth y m (d - daysInMonth y m) h1 h2
  rw [h, sub_add_cancel]

theorem dayNorm_toDays (fuel : ℕ) : ∀ y m d : Int, 0 ≤ m → m < 12 →
    toDays (dayNorm fuel y m d) = toDays ⟨y, m, d⟩ := by
  induction fuel with
  | zero => intro y m d h1 h2; rfl
  | succ f ih =>
    intro y m d h1 h2
    simp only [dayNorm]
    split
    · rcases eq_or_ne m 0 with hm | hm
      · subst hm
        simp only [if_pos rfl, if_true]
        rw [ih (y - 1) 11 _ (by omega) (by omega)]
        have h := toDays_nextMonth (y - 1) 11 d (by omega) (by omega)
        simp only [if_pos rfl, if_true] at h
        rw [sub_add_cancel] at h
        exact h.symm
      · simp only [if_neg hm]
        rw [ih y (m - 1) _ (by omega) (by omega)]
        have h := toDays_nextMonth y (m - 1) d (by omega) (by omega)
        rw [if_neg (by omega), if_neg (by omega)] at h
        have hm1 : m - 1 + 1 = m := by omega
        rw [hm1] at h
        exact h.symm
    · split
      · rcases eq_or_ne m 11 with hm | hm
        · subst hm
          simp only [if_pos rfl, if_true]
          rw [ih (y + 1) 0 _ (by omega) (by omega)]
          have h := toDays_prevMonthSub y 11 d (by omega) (by omega)
          simp only [if_pos rfl, if_true] at h
          exact h
        · simp only [if_neg hm]
          rw [ih y (m + 1) _ (by omega) (by omega)]
          have h := toDays_prevMonthSub y m d h1 (by omega)
          rw [if_neg hm, if_neg hm] at h
          exact h
      · rfl

theorem toDaysM_of_bounds (y m d : Int) (h1 : 0 ≤ m) (h2 : m < 12) :
    toDaysM (12 * y + m) d = toDays ⟨y, m, d⟩ := by
  unfold toDaysM
  have hy : (12 * y + m) / 12 = y := by omega
  have hm : (12 * y + m) % 12 = m := by omega
  rw [hy, hm]

theorem toDays_mkDate (y m d : Int) : toDays (mkDate y m d) = toDaysM (12 * y + m) d := by
  unfold mkDate
  rw [dayNorm_toDays _ _ _ _ (Int.emod_nonneg m (by norm_num)) (Int.emod_lt_of_pos m (by norm_num))]
  have h := toDaysM_of_bounds (y + m / 12) (m % 12) d (Int.emod_nonneg m (by norm_num))
    (Int.emod_lt_of_pos m (by norm_num))
  have he : 12 * (y + m / 12) + m % 12 = 12 * y + m := by omega
  rw [he] at h
  exact h.symm

theorem mkDate_month_bounds (y m d : Int) :
    0 ≤ (mkDate y m d).month ∧ (mkDate y m d).month < 12 := by
  unfold mkDate
  exact dayNorm_month_lb_ub _ _ _ _ (Int.emod_nonneg m (by norm_num)) (Int.emod_lt_of_pos m (by norm_num))

theorem toDaysM_succ (M d : Int) :
    toDaysM (M + 1) d = toDaysM M d + daysInMonth (M / 12) (M % 12) := by
  unfold toDaysM
  have hm0 : 0 ≤ M % 12 := Int.emod_nonneg M (by norm_num)
  have hm1 : M % 12 < 12 := Int.emod_lt_of_pos M (by norm_num)
  rcases eq_or_ne (M % 12) 11 with hm | hm
  · have hy : (M + 1) / 12 = M / 12 + 1 := by omega
    have hmm : (M + 1) % 12 = 0 := by omega
    rw [hy, hmm]
    have h := toDays_nextMonth (M / 12) (M % 12) d hm0 hm1
    rw [if_pos hm, if_pos hm] at h
    rw [h, toDays_day, hm]
  · have hy : (M + 1) / 12 = M / 12 := by omega
    have hmm : (M + 1) % 12 = M % 12 + 1 := by omega
    rw [hy, hmm]
    have h := toDays_nextMonth (M / 12) (M % 12) d hm0 hm1
    rw [if_neg hm, if_neg hm] at h
    rw [h, toDays_day]

theorem toDaysM_sub_nat_le (n : ℕ) (M d : Int) : toDaysM (M - n) d ≤ toDaysM M d := by
  induction n with
  | zero => simp
  | succ k ih =>
    have h := toDaysM_succ (M - (k + 1 : ℕ)) d
    have he : M - (k + 1 : ℕ) + 1 = M - (k : ℕ) := by push_cast; ring
    rw [he] at h
    have hlb := daysInMonth_lb ((M - (k + 1 : ℕ)) / 12) ((M - (k + 1 : ℕ)) % 12)
    omega

theorem toDaysM_sub_le (k M d : Int) (hk : 0 ≤ k) : toDaysM (M - k) d ≤ toDaysM M d := by
  have h := toDaysM_sub_nat_le k.toNat M d
  rwa [Int.toNat_of_nonneg hk] at h

theorem subMonths_toDays_le (t : Date) (w : Int) (hw : 0 ≤ w)
    (h1 : 0 ≤ t.month) (h2 : t.month < 12) :
    toDays (subMonths t w) ≤ toDays t := by
  unfold subMonths
  rw [toDays_mkDate]
  have he : 12 * t.year + (t.month - w) = (12 * t.year + t.month) - w := by ring
  rw [he]
  calc toDaysM (12 * t.year + t.month - w) t.day ≤ toDaysM (12 * t.year + t.month) t.day :=
        toDaysM_sub_le w _ _ hw
    _ = toDays ⟨t.year, t.month, t.day⟩ := toDaysM_of_bounds _ _ _ h1 h2
    _ = toDays t := rfl

theorem addDays_toDays (t : Date) (k : Int) (h1 : 0 ≤ t.month) (h2 : t.month < 12) :
    toDays (addDays t k) = toDays t + k := by
  unfold addDays
  rw [toDays_mkDate, toDaysM_of_bounds _ _ _ h1 h2]
  have h := toDays_day t.year t.month t.day k
  calc toDays ⟨t.year, t.month, t.day + k⟩ = toDays ⟨t.year, t.month, t.day⟩ + k := h
    _ = toDays t + k := rfl

theorem dayNorm_fix (fuel : ℕ) (y m d : Int) (h1 : 1 ≤ d) (h2 : d ≤ daysInMonth y m) :
    dayNorm (fuel + 1) y m d = ⟨y, m, d⟩ := by
  simp only [dayNorm]
  rw [if_neg (by omega), if_neg (by omega)]

theorem mkDate_eq_of_fit (y m d : Int) (h1 : 1 ≤ d)
    (h2 : d ≤ daysInMonth (y + m / 12) (m % 12)) :
    mkDate y m d = ⟨y + m / 12, m % 12, d⟩ := by
  unfold mkDate
  have hf : d.natAbs + 3 = (d.natAbs + 2) + 1 := rfl
  rw [hf, dayNorm_fix _ _ _ _ h1 h2]

theorem mkDate_eq_of_carry (y m d : Int) (h1 : 1 ≤ d) (h2 : d ≤ 46)
    (h3 : daysInMonth (y + m / 12) (m % 12) < d) :
    mkDate y m d =
      ⟨if m % 12 = 11 then y + m / 12 + 1 else y + m / 12,
       if m % 12 = 11 then 0 else m % 12 + 1,
       d - daysInMonth (y + m / 12) (m % 12)⟩ := by
  unfold mkDate
  have hf : d.natAbs + 3 = (d.natAbs + 1) + 1 + 1 := rfl
  rw [hf]
  conv_lhs => rw [dayNorm]
  rw [if_neg (by omega), if_pos h3]
  have hlb := daysInMonth_lb (y + m / 12) (m % 12)
  have hlb2 := daysInMonth_lb (if m % 12 = 11 then y + m / 12 + 1 else y + m / 12)
    (if m % 12 = 11 then 0 else m % 12 + 1)
  exact dayNorm_fix _ _ _ _ (by omega) (by omega)

theorem mkDate_eq_of_borrow (y m d : Int) (h1 : -27 ≤ d) (h2 : d < 1) :
    mkDate y m d =
      ⟨if m % 12 = 0 then y + m / 12 - 1 else y + m / 12,
       if m % 12 = 0 then 11 else m % 12 - 1,
       d + daysInMonth (if m % 12 = 0 then y + m / 12 - 1 else y + m / 12)
         (if m % 12 = 0 then 11 else m % 12 - 1)⟩ := by
  unfold mkDate
  have hf : d.natAbs + 3 = (d.natAbs + 1) + 1 + 1 := rfl
  rw [hf]
  conv_lhs => rw [dayNorm]
  rw [if_pos h2]
  have hlb := daysInMonth_lb (if m % 12 = 0 then y + m / 12 - 1 else y + m / 12)
    (if m % 12 = 0 then 11 else m % 12 - 1)
  have hub := daysInMonth_ub (if m % 12 = 0 then y + m / 12 - 1 else y + m / 12)
    (if m % 12 = 0 then 11 else m % 12 - 1)
  exact dayNorm_fix _ _ _ _ (by omega) (by omega)

theorem mkDate_valid_of_range (y m d : Int) (ha : -27 ≤ d) (hb : d ≤ 46) :
    (mkDate y m d).Valid := by
  have hm0 : 0 ≤ m % 12 := Int.emod_nonneg m (by norm_num)
  have hm1 : m % 12 < 12 := Int.emod_lt_of_pos m (by norm_num)
  rcases lt_or_le d 1 with hd | hd
  · rw [mkDate_eq_of_borrow y m d ha hd]
    unfold Date.Valid
    dsimp only
    have hlb := daysInMonth_lb (if m % 12 = 0 then y + m / 12 - 1 else y + m / 12)
      (if m % 12 = 0 then 11 else m % 12 - 1)
    refine ⟨by split <;> omega, by split <;> omega, by omega, by omega⟩
  · rcases le_or_lt d (daysInMonth (y + m / 12) (m % 12)) with h | h
    · rw [mkDate_eq_of_fit y m d hd h]
      exact ⟨hm0, hm1, hd, h⟩
    · rw [mkDate_eq_of_carry y m d hd hb h]
      unfold Date.Valid
      dsimp only
      have hlb := daysInMonth_lb (y + m / 12) (m % 12)
      have hlb2 := daysInMonth_lb (if m % 12 = 11 then y + m / 12 + 1 else y + m / 12)
        (if m % 12 = 11 then 0 else m % 12 + 1)
      refine ⟨by split <;> omega, by split <;> omega, by omega, by omega⟩

theorem addMonths_valid (date : Date) (n : Int) (h : date.Valid) :
    (addMonths date n).Valid := by
  have hub := daysInMonth_ub date.year date.month
  exact mkDate_valid_of_range _ _ _ (by obtain ⟨_, _, h3, h4⟩ := h; omega)
    (by obtain ⟨_, _, h3, h4⟩ := h; omega)

theorem subMonths_valid (date : Date) (n : Int) (h : date.Valid) :
    (subMonths date n).Valid := by
  have hub := daysInMonth_ub date.year date.month
  exact mkDate_valid_of_range _ _ _ (by obtain ⟨_, _, h3, h4⟩ := h; omega)
    (by obtain ⟨_, _, h3, h4⟩ := h; omega)

theorem addDays_valid (date : Date) (k : Int) (h : date.Valid)
    (hk1 : -15 ≤ k) (hk2 : k ≤ 15) : (addDays date k).Valid := by
  have hub := daysInMonth_ub date.year date.month
  exact mkDate_valid_of_range _ _ _ (by obtain ⟨_, _, h3, h4⟩ := h; omega)
    (by obtain ⟨_, _, h3, h4⟩ := h; omega)

theorem addMonths_zero (date : Date) (h : date.Valid) : addMonths date 0 = date := by
  obtain ⟨h1, h2, h3, h4⟩ := h
  unfold addMonths
  rw [add_zero]
  have hy : date.month / 12 = 0 := by omega
  have hm : date.month % 12 = date.month := by omega
  rw [mkDate_eq_of_fit _ _ _ h3 (by rw [hy, hm, add_zero]; exact h4)]
  rw [hy, hm, add_zero]

theorem diffMonths_nonneg (a b : Date) : 0 ≤ diffMonths a b := by
  unfold diffMonths
  dsimp only
  split <;> omega

theorem backwardWalk_toDays_le (fuel : ℕ) : ∀ (c : Date) (f n : Int),
    0 ≤ c.month → c.month < 12 → toDays ((backwardWalk fuel c f n).1) ≤ toDays c := by
  induction fuel with
  | zero => intro c f n _ _; exact le_refl _
  | succ fl ih =>
    intro c f n h1 h2
    simp only [backwardWalk]
    split
    · dsimp only
      have hb := mkDate_month_bounds c.year (c.month - 1) c.day
      have hstep : toDays (subMonths c 1) ≤ toDays c := subMonths_toDays_le c 1 (by norm_num) h1 h2
      calc toDays ((backwardWalk fl (subMonths c 1) _ n).1) ≤ toDays (subMonths c 1) :=
            ih _ _ _ hb.1 hb.2
        _ ≤ toDays c := hstep
    · exact le_refl _

theorem backwardWalk_month_bounds (fuel : ℕ) : ∀ (c : Date) (f n : Int),
    0 ≤ c.month → c.month < 12 →
    0 ≤ ((backwardWalk fuel c f n).1).month ∧ ((backwardWalk fuel c f n).1).month < 12 := by
  induction fuel with
  | zero => intro c f n h1 h2; exact ⟨h1, h2⟩
  | succ fl ih =>
    intro c f n h1 h2
    simp only [backwardWalk]
    split
    · dsimp only
      have hb := mkDate_month_bounds c.year (c.month - 1) c.day
      exact ih _ _ _ hb.1 hb.2
    · exact ⟨h1, h2⟩

theorem backwardWalk_steps_le (fuel : ℕ) : ∀ (c : Date) (f n : Int),
    (backwardWalk fuel c f n).2 ≤ fuel := by
  induction fuel with
  | zero => intro c f n; exact le_refl _
  | succ fl ih =>
    intro c f n
    simp only [backwardWalk]
    split
    · dsimp only
      have h := ih (subMonths c 1) (if isRestrictedMonth (subMonths c 1) then f else f + 1) n
      omega
    · omega

theorem forwardWalk_steps_le (fuel : ℕ) : ∀ (c : Date) (f n : Int),
    (forwardWalk fuel c f n).2 ≤ fuel := by
  induction fuel with
  | zero => intro c f n; exact le_refl _
  | succ fl ih =>
    intro c f n
    simp only [forwardWalk]
    split
    · dsimp only
      have h := ih (addMonths c 1) (if isRestrictedMonth c then f else f + 1) n
      omega
    · omega

theorem backwardWalk_fst_eq_spec (fuel : ℕ) : ∀ (c : Date) (f n : Int),
    (backwardWalk fuel c f n).1 = backwardWalkSpecGo fuel c f n := by
  induction fuel with
  | zero => intro c f n; rfl
  | succ fl ih =>
    intro c f n
    simp only [backwardWalk, backwardWalkSpecGo]
    rcases lt_or_le f n with h | h
    · simp only [if_pos h, if_neg (not_le.mpr h)]
      exact ih _ _ _
    · simp only [if_neg (not_lt.mpr h), if_pos h]

/-- C8: diffMonths equals max(0, 12*(year difference) + (month difference)),
computed from the year and month components only, and consequently the
totalDurationMonths of every configuration's result is nonnegative. -/
theorem diffMonths_formula_and_total_nonneg :
    (∀ a b : Date, diffMonths a b = max 0 ((b.year - a.year) * 12 + (b.month - a.month))) ∧
    ∀ config : ProjectConfig, 0 ≤ (calculateProjectTimeline config).totalDurationMonths := by
  constructor
  · intro a b
    unfold diffMonths
    dsimp only
    split <;> omega
  · intro config
    have h : (calculateProjectTimeline config).totalDurationMonths =
        ((diffMonths (finalNegotiationStart config) (codDate config) : Int) : ℚ) := rfl
    rw [h]
    exact_mod_cast diffMonths_nonneg _ _

/-- C6: the connection duration used by the engine is the override when
present, else 5 months under self-consumption, else the power tier
(6 up to 36 kWc, 9 up to 250, 12 up to 1000, 18 above), and it is forced
to 0 whenever the connection phase is skipped; the result's connection
range reports exactly this duration, and the 36-kWc boundary is exact. -/
theorem connectionDuration_spec :
    (∀ config : ProjectConfig,
      connectionDuration config =
        if config.skippedPhases.connection then 0
        else
          match config.overrides.connectionDuration with
          | some d => d
          | none =>
            if config.injectionType = InjectionType.AUTOCONSUMPTION then 5
            else if config.powerKWc ≤ 36 then 6
            else if config.powerKWc ≤ 250 then 9
            else if config.powerKWc ≤ 1000 then 12
            else 18) ∧
    (∀ config : ProjectConfig,
      (calculateProjectTimeline config).connection.durationMonths =
        (connectionDuration config : ℚ)) ∧
    connectionDuration (tierConfig 36) = 6 ∧
    connectionDuration (tierConfig 36.0001) = 9 := by
  refine ⟨fun config => rfl, fun config => rfl, by decide, ?_⟩
  norm_num [connectionDuration, tierConfig, noOverrides, noSkips]
  decide

/-- C4: on the concrete scenario (T0 = 2025-03-01, 200 kWc, existing roof,
total injection, own investment, self-executed, no skips, no overrides)
the engine computes the specified intermediate values; the backward walk
lands on 2026-03-17, having skipped the traversed April. -/
theorem scenario_values :
    urbanismDuration scenarioConfig = 4 ∧
    urbanEnd scenarioConfig = ⟨2025, 6, 1⟩ ∧
    creRange scenarioConfig = some ⟨⟨2025, 6, 1⟩, ⟨2025, 10, 1⟩, 4⟩ ∧
    leaseRange scenarioConfig = some ⟨⟨2025, 6, 1⟩, ⟨2025, 10, 1⟩, 4⟩ ∧
    securityLockDate scenarioConfig = ⟨2025, 10, 1⟩ ∧
    connectionDuration scenarioConfig = 9 ∧
    connectionEnd0 scenarioConfig = ⟨2026, 7, 1⟩ ∧
    workMonthsNeeded scenarioConfig = 3 ∧
    targetConstructionEnd scenarioConfig = ⟨2026, 6, 17⟩ ∧
    initialConstructionStart scenarioConfig = ⟨2026, 2, 17⟩ := by
  decide

/-- C7 as stated fails: shifting 2025-01-31 forward by one month rolls
over into 2025-03-03, and shifting back by one month lands in February,
so the round trip changes the month, not only the day. -/
theorem addMonths_roundtrip_counterexample :
    (addMonths (addMonths ⟨2025, 0, 31⟩ 1) (-1)).month ≠ (⟨2025, 0, 31⟩ : Date).month ∧
    addMonths (addMonths ⟨2025, 0, 31⟩ 1) (-1) = ⟨2025, 1, 3⟩ := by
  decide

/-- C7 amended: for a valid date, when the forward month shift does not
roll the day over (the shifted date keeps the same day-of-month), the
round trip addMonths(addMonths(d, n), -n) reproduces d exactly. -/
theorem addMonths_roundtrip (d : Date) (n : Int) (hv : d.Valid)
    (hday : (addMonths d n).day = d.day) :
    addMonths (addMonths d n) (-n) = d := by
  obtain ⟨h1, h2, h3, h4⟩ := hv
  have hub := daysInMonth_ub d.year d.month
  rcases le_or_lt d.day (daysInMonth (d.year + (d.month + n) / 12) ((d.month + n) % 12))
    with hfit | hcarry
  · unfold addMonths
    rw [mkDate_eq_of_fit _ _ _ h3 hfit]
    dsimp only
    have key1 : d.year + (d.month + n) / 12 + ((d.month + n) % 12 + -n) / 12 = d.year := by
      omega
    have key2 : ((d.month + n) % 12 + -n) % 12 = d.month := by
      omega
    rw [mkDate_eq_of_fit _ _ _ h3 (by rw [key1, key2]; exact h4)]
    rw [key1, key2]
  · exfalso
    unfold addMonths at hday
    rw [mkDate_eq_of_carry _ _ _ h3 (by omega) hcarry] at hday
    dsimp only at hday
    have hlb := daysInMonth_lb (d.year + (d.month + n) / 12) ((d.month + n) % 12)
    omega

/-- Witness for the amended C7 at 2025-03-01 shifted by 5 months. -/
theorem addMonths_roundtrip_witness :
    (⟨2025, 2, 1⟩ : Date).Valid ∧
    (addMonths ⟨2025, 2, 1⟩ 5).day = (⟨2025, 2, 1⟩ : Date).day ∧
    addMonths (addMonths ⟨2025, 2, 1⟩ 5) (-5) = ⟨2025, 2, 1⟩ :=
  ⟨by decide, by decide, addMonths_roundtrip ⟨2025, 2, 1⟩ 5 (by decide) (by decide)⟩

/-- C5 as stated fails: with the tender phase not skipped but only 50 kWc,
the tender is excluded by the power gate and the laureate milestone is
absent, although its owning phase was not skipped. -/
theorem milestone_presence_counterexample :
    smallPowerConfig.skippedPhases.aoCre = false ∧
    (calculateProjectTimeline smallPowerConfig).milestones.laureate = none := by
  decide

/-- C5 amended: the signature milestone is always present and equals T0;
the loi and urbanismOk milestones (and the corresponding ranges) are
present iff their phase is not skipped; the laureate and leaseSigned
milestones are present iff their phase is actually included - not skipped
AND its gating condition (power and injection mode for the tender,
investment model for the lease) holds; the constructionCompletion
milestone is always present, equal to the construction range end, even
when construction is skipped. -/
theorem milestone_presence (config : ProjectConfig) :
    (calculateProjectTimeline config).milestones.signature = config.signatureDate ∧
    ((calculateProjectTimeline config).negotiation.isSome ↔
      config.skippedPhases.negotiation = false) ∧
    ((calculateProjectTimeline config).milestones.loi.isSome ↔
      config.skippedPhases.negotiation = false) ∧
    ((calculateProjectTimeline config).urbanism.isSome ↔
      config.skippedPhases.urbanism = false) ∧
    ((calculateProjectTimeline config).milestones.urbanismOk.isSome ↔
      config.skippedPhases.urbanism = false) ∧
    ((calculateProjectTimeline config).milestones.laureate.isSome ↔
      (calculateProjectTimeline config).aoCre.isSome) ∧
    ((calculateProjectTimeline config).aoCre.isSome ↔
      config.skippedPhases.aoCre = false ∧ 100 < config.powerKWc ∧
        config.injectionType = InjectionType.TOTAL_INJECTION) ∧
    ((calculateProjectTimeline config).milestones.leaseSigned.isSome ↔
      (calculateProjectTimeline config).leaseManagement.isSome) ∧
    ((calculateProjectTimeline config).leaseManagement.isSome ↔
      config.skippedPhases.leaseManagement = false ∧
        config.investmentModel = InvestmentModel.OWN_INVESTMENT) ∧
    (calculateProjectTimeline config).milestones.constructionCompletion =
      (calculateProjectTimeline config).construction.«end» := by
  simp only [calculateProjectTimeline]
  refine ⟨trivial, ?_, ?_, ?_, ?_, ?_, ?_, ?_, ?_, trivial⟩
  · unfold negotiationRange
    cases hn : config.skippedPhases.negotiation <;> simp [hn]
  · unfold negotiationRange
    cases hn : config.skippedPhases.negotiation <;> simp [hn]
  · unfold urbanRange
    cases hu : config.skippedPhases.urbanism <;> simp [hu]
  · unfold urbanRange
    cases hu : config.skippedPhases.urbanism <;> simp [hu]
  · cases creRange config <;> simp
  · unfold creRange
    by_cases hc : config.skippedPhases.aoCre = false ∧ 100 < config.powerKWc ∧
        config.injectionType = InjectionType.TOTAL_INJECTION <;>
      simp [hc]
  · cases leaseRange config <;> simp
  · unfold leaseRange
    by_cases hl : config.skippedPhases.leaseManagement = false ∧
        config.investmentModel = InvestmentModel.OWN_INVESTMENT <;>
      simp [hl]

/-- C9: the engine is total by construction and both seasonality walks
execute at most 36 iterations on every input; a configuration whose
override exhausts the bound (100 work months) still receives a
best-effort result - the walk stops after exactly 36 steps and the engine
re-anchors the construction start at the security lock date. -/
theorem walk_bound_and_truncation :
    (∀ (c : Date) (f n : Int), (backwardWalk 36 c f n).2 ≤ 36) ∧
    (∀ (c : Date) (f n : Int), (forwardWalk 36 c f n).2 ≤ 36) ∧
    (backwardWalk 36 (targetConstructionEnd truncationConfig) 0
      (workMonthsNeeded truncationConfig)).2 = 36 ∧
    (calculateProjectTimeline truncationConfig).construction.start = ⟨2025, 10, 1⟩ :=
  ⟨fun c f n => backwardWalk_steps_le 36 c f n,
   fun c f n => forwardWalk_steps_le 36 c f n,
   by decide, by decide⟩

/-- C2: for construction not skipped, the construction start is initially
placed backward from the target end (the initial connection end minus 15
days): a plain subtraction of workMonthsNeeded months when subcontracted,
and otherwise the backward seasonality walk as worded by the spec (at most
36 steps, counting only non-restricted landing months); when the placement
needs no repair it is the construction start of the returned result. -/
theorem initial_backward_placement (config : ProjectConfig)
    (h : config.skippedPhases.construction = false) :
    targetConstructionEnd config =
      addDays (addMonths (securityLockDate config) (connectionDuration config)) (-15) ∧
    initialConstructionStart config =
      (if config.isSubcontracted then
        subMonths (targetConstructionEnd config) (workMonthsNeeded config)
      else backwardWalkSpecGo 36 (targetConstructionEnd config) 0 (workMonthsNeeded config)) ∧
    (¬ toDays (initialConstructionStart config) < toDays (securityLockDate config) →
      (calculateProjectTimeline config).construction.start = initialConstructionStart config) := by
  refine ⟨rfl, ?_, ?_⟩
  · unfold initialConstructionStart
    split
    · rfl
    · exact backwardWalk_fst_eq_spec 36 _ _ _
  · intro hnr
    simp only [calculateProjectTimeline]
    unfold constructionRange
    simp [h, hnr]

/-- Witness for C2 at the concrete scenario configuration. -/
theorem initial_backward_placement_witness :
    scenarioConfig.skippedPhases.construction = false ∧
    (calculateProjectTimeline scenarioConfig).construction.start =
      initialConstructionStart scenarioConfig :=
  ⟨rfl, (initial_backward_placement scenarioConfig rfl).2.2 (by decide)⟩

theorem urbanEnd_valid (config : ProjectConfig) (hv : config.signatureDate.Valid) :
    (urbanEnd config).Valid := by
  unfold urbanEnd
  split
  · exact hv
  · exact addMonths_valid _ _ hv

theorem creEndDate_valid (config : ProjectConfig) (hv : config.signatureDate.Valid) :
    (creEndDate config).Valid := by
  unfold creEndDate
  rcases h : creRange config with _ | r
  · exact urbanEnd_valid config hv
  · unfold creRange at h
    split at h
    · rw [Option.some_inj] at h
      rw [← h]
      exact addMonths_valid _ _ (urbanEnd_valid config hv)
    · exact absurd h (by simp)

theorem leaseEndDate_valid (config : ProjectConfig) (hv : config.signatureDate.Valid) :
    (leaseEndDate config).Valid := by
  unfold leaseEndDate
  rcases h : leaseRange config with _ | r
  · exact urbanEnd_valid config hv
  · unfold leaseRange at h
    split at h
    · rw [Option.some_inj] at h
      rw [← h]
      exact addMonths_valid _ _ (urbanEnd_valid config hv)
    · exact absurd h (by simp)

theorem securityLockDate_valid (config : ProjectConfig) (hv : config.signatureDate.Valid) :
    (securityLockDate config).Valid := by
  unfold securityLockDate
  split
  · exact leaseEndDate_valid config hv
  · exact creEndDate_valid config hv

/-- C1: when construction is not skipped and the backward placement
precedes the security lock date, the engine re-anchors the construction
start to exactly the security lock date; when connection is also not
skipped, the connection end is overwritten with the forward-recomputed
construction end plus 15 days (a plain month addition when subcontracted,
the forward seasonality walk otherwise), the connection start is
recomputed as that end minus the connection duration, and the reported
connection duration is unchanged - the window slides, its length stays. -/
theorem repair_branch (config : ProjectConfig)
    (h1 : config.skippedPhases.construction = false)
    (h2 : toDays (initialConstructionStart config) < toDays (securityLockDate config)) :
    (calculateProjectTimeline config).construction.start = securityLockDate config ∧
    (config.skippedPhases.connection = false →
      (calculateProjectTimeline config).connection.«end» =
        addDays
          (if config.isSubcontracted then
            addMonths (securityLockDate config) (workMonthsNeeded config)
          else (forwardWalk 36 (securityLockDate config) 0 (workMonthsNeeded config)).1) 15 ∧
      (calculateProjectTimeline config).connection.start =
        subMonths ((calculateProjectTimeline config).connection.«end»)
          (connectionDuration config) ∧
      (calculateProjectTimeline config).connection.durationMonths =
        (connectionDuration config : ℚ)) := by
  constructor
  · simp only [calculateProjectTimeline]
    unfold constructionRange
    simp [h1, h2]
  · intro h3
    have hcr : connectionRewritten config := ⟨h1, h2, h3⟩
    refine ⟨?_, ?_, rfl⟩
    · show finalConnectionEnd config = _
      unfold finalConnectionEnd
      rw [if_pos hcr]
      unfold actualConstructionEnd
      rfl
    · show finalConnectionStart config = subMonths (finalConnectionEnd config) _
      unfold finalConnectionStart
      rw [if_pos hcr]

/-- Witness for C1 at the concrete repair configuration. -/
theorem repair_branch_witness :
    repairConfig.skippedPhases.construction = false ∧
    toDays (initialConstructionStart repairConfig) < toDays (securityLockDate repairConfig) ∧
    repairConfig.skippedPhases.connection = false ∧
    (calculateProjectTimeline repairConfig).connection.start =
      subMonths ((calculateProjectTimeline repairConfig).connection.«end»)
        (connectionDuration repairConfig) :=
  ⟨rfl, by decide, rfl, ((repair_branch repairConfig rfl (by decide)).2 rfl).2.1⟩

/-- C3 as stated fails: on the repair configuration the rewritten
connection window starts before the security lock date. -/
theorem security_lock_counterexample :
    toDays ((calculateProjectTimeline repairConfig).connection.start) <
      toDays (securityLockDate repairConfig) := by
  decide

/-- C3 amended: the security lock date is the later of the tender end
(urbanism end when the tender is absent) and the lease end (urbanism end
when the lease is absent); the construction range never starts before it;
and the connection range never starts before it as long as the repair
propagation does not rewrite the connection window - that is, whenever
construction is skipped, or connection is skipped, or the backward
placement does not precede the lock.  (When the repair does rewrite the
window, the connection start can precede the lock.) -/
theorem security_lock (config : ProjectConfig) :
    securityLockDate config =
      (if toDays (((calculateProjectTimeline config).aoCre).elim (urbanEnd config)
            (fun r => r.«end»)) <
          toDays (((calculateProjectTimeline config).leaseManagement).elim (urbanEnd config)
            (fun r => r.«end»)) then
        ((calculateProjectTimeline config).leaseManagement).elim (urbanEnd config)
          (fun r => r.«end»)
      else
        ((calculateProjectTimeline config).aoCre).elim (urbanEnd config) (fun r => r.«end»)) ∧
    ¬ toDays ((calculateProjectTimeline config).construction.start) <
        toDays (securityLockDate config) ∧
    (config.skippedPhases.construction = true ∨ config.skippedPhases.connection = true ∨
        ¬ toDays (initialConstructionStart config) < toDays (securityLockDate config) →
      ¬ toDays ((calculateProjectTimeline config).connection.start) <
          toDays (securityLockDate config)) := by
  have e1 : ((calculateProjectTimeline config).aoCre).elim (urbanEnd config)
      (fun r => r.«end») = creEndDate config := by
    show (creRange config).elim _ _ = _
    unfold creEndDate
    cases creRange config <;> rfl
  have e2 : ((calculateProjectTimeline config).leaseManagement).elim (urbanEnd config)
      (fun r => r.«end») = leaseEndDate config := by
    show (leaseRange config).elim _ _ = _
    unfold leaseEndDate
    cases leaseRange config <;> rfl
  refine ⟨?_, ?_, ?_⟩
  · rw [e1, e2]
    rfl
  · simp only [calculateProjectTimeline]
    unfold constructionRange
    by_cases hc : config.skippedPhases.construction
    · simp [hc]
    · by_cases hr : toDays (initialConstructionStart config) < toDays (securityLockDate config)
      · simp [hc, hr]
      · simp [hc, hr]
  · intro h
    have hnr : ¬ connectionRewritten config := by
      intro hcr
      obtain ⟨hc1, hc2, hc3⟩ := hcr
      rcases h with h | h | h
      · rw [h] at hc1
        exact absurd hc1 (by simp)
      · rw [h] at hc3
        exact absurd hc3 (by simp)
      · exact h hc2
    show ¬ toDays (finalConnectionStart config) < toDays (securityLockDate config)
    unfold finalConnectionStart
    rw [if_neg hnr]
    exact lt_irrefl _

/-- Witness for the amended C3: with construction skipped the connection
window never starts before the security lock date. -/
theorem security_lock_witness :
    ¬ toDays ((calculateProjectTimeline constructionSkippedConfig).connection.start) <
      toDays (securityLockDate constructionSkippedConfig) :=
  (security_lock constructionSkippedConfig).2.2 (Or.inl rfl)

/-- C10 as stated fails: with connection skipped, construction not
skipped, subcontracting, and a negative construction-duration override,
the backward placement jumps forward past the lock, the repair branch does
not fire, and the construction start is not the security lock date. -/
theorem skipped_connection_counterexample :
    subNegOverrideConfig.skippedPhases.connection = true ∧
    subNegOverrideConfig.skippedPhases.construction = false ∧
    ¬ toDays (initialConstructionStart subNegOverrideConfig) <
        toDays (securityLockDate subNegOverrideConfig) ∧
    (calculateProjectTimeline subNegOverrideConfig).construction.start ≠
      securityLockDate subNegOverrideConfig := by
  decide

/-- C10 amended: for every configuration with a valid signature date,
connection skipped, construction not skipped, and a nonnegative work-month
count (a negative subcontracted override can jump the placement forward
and skip the repair), the connection duration is forced to 0, the target
construction end is the security lock date minus 15 days, the repair
condition always fires, yet the connection window is left unchanged
because the propagation is guarded on connection not being skipped: the
returned construction range runs from the lock date to the lock date minus
15 days (an end strictly before its start) with duration 0, and the
returned connection range is the zero-length range at the lock date. -/
theorem skipped_connection_degenerate (config : ProjectConfig)
    (hv : config.signatureDate.Valid)
    (hconn : config.skippedPhases.connection = true)
    (hcons : config.skippedPhases.construction = false)
    (hw : 0 ≤ workMonthsNeeded config) :
    connectionDuration config = 0 ∧
    targetConstructionEnd config = addDays (securityLockDate config) (-15) ∧
    toDays (initialConstructionStart config) < toDays (securityLockDate config) ∧
    (calculateProjectTimeline config).construction.start = securityLockDate config ∧
    (calculateProjectTimeline config).construction.«end» =
      addDays (securityLockDate config) (-15) ∧
    toDays ((calculateProjectTimeline config).construction.«end») <
      toDays ((calculateProjectTimeline config).construction.start) ∧
    (calculateProjectTimeline config).construction.durationMonths = 0 ∧
    (calculateProjectTimeline config).connection =
      ⟨securityLockDate config, securityLockDate config, 0⟩ := by
  have hlv := securityLockDate_valid config hv
  obtain ⟨hm1, hm2, hd1, hd2⟩ := hlv
  have hd0 : connectionDuration config = 0 := by
    unfold connectionDuration
    rw [hconn]
    rfl
  have hce : connectionEnd0 config = securityLockDate config := by
    unfold connectionEnd0
    rw [hd0]
    exact addMonths_zero _ ⟨hm1, hm2, hd1, hd2⟩
  have htarget : targetConstructionEnd config = addDays (securityLockDate config) (-15) := by
    unfold targetConstructionEnd
    rw [hce]
  have htd : toDays (targetConstructionEnd config) = toDays (securityLockDate config) - 15 := by
    rw [htarget, addDays_toDays _ _ hm1 hm2]
    ring
  have htb : 0 ≤ (targetConstructionEnd config).month ∧
      (targetConstructionEnd config).month < 12 := by
    rw [htarget]
    unfold addDays
    exact mkDate_month_bounds _ _ _
  have hinit : toDays (initialConstructionStart config) ≤
      toDays (targetConstructionEnd config) := by
    unfold initialConstructionStart
    split
    · exact subMonths_toDays_le _ _ hw htb.1 htb.2
    · exact backwardWalk_toDays_le 36 _ _ _ htb.1 htb.2
  have hrep : toDays (initialConstructionStart config) < toDays (securityLockDate config) := by
    omega
  have hnr : ¬ connectionRewritten config := by
    intro hcr
    obtain ⟨_, _, hc3⟩ := hcr
    rw [hconn] at hc3
    exact absurd hc3 (by simp)
  have hfce : finalConnectionEnd config = securityLockDate config := by
    unfold finalConnectionEnd
    rw [if_neg hnr]
    exact hce
  have hfcs : finalConnectionStart config = securityLockDate config := by
    unfold finalConnectionStart
    rw [if_neg hnr]
  have hcs : (calculateProjectTimeline config).construction.start =
      securityLockDate config := by
    simp only [calculateProjectTimeline]
    unfold constructionRange
    simp [hcons, hrep]
  have hcend : (calculateProjectTimeline config).construction.«end» =
      addDays (securityLockDate config) (-15) := by
    simp only [calculateProjectTimeline]
    unfold constructionRange
    simp [hcons, hfce]
  refine ⟨hd0, htarget, hrep, hcs, hcend, ?_, ?_, ?_⟩
  · rw [hcs, hcend, addDays_toDays _ _ hm1 hm2]
    omega
  · simp only [calculateProjectTimeline]
    unfold constructionRange
    simp only [hcons, Bool.false_eq_true, if_false, if_pos hrep, hfce]
    unfold diffMonths
    simp
  · show (⟨finalConnectionStart config, finalConnectionEnd config,
        (connectionDuration config : ℚ)⟩ : DateRange) = _
    rw [hfcs, hfce, hd0]
    norm_num

/-- Witness for the amended C10 at the connection-skipped configuration. -/
theorem skipped_connection_degenerate_witness :
    connectionSkippedConfig.signatureDate.Valid ∧
    0 ≤ workMonthsNeeded connectionSkippedConfig ∧
    (calculateProjectTimeline connectionSkippedConfig).connection =
      ⟨securityLockDate connectionSkippedConfig, securityLockDate connectionSkippedConfig, 0⟩ :=
  ⟨by decide, by decide,
    (skipped_connection_degenerate connectionSkippedConfig (by decide) rfl rfl
      (by decide)).2.2.2.2.2.2.2⟩
